import Mathlib

/-!
Verification of the infinite-tic-tac-toe backend (src/matchHandlers.js).

The development has two layers.

Layer 1 is a shallow embedding of the mutable server state handled by the
socket event handlers: the `matches` map (session-id to session) and the
`activePlayers` map (player-id to connection data).  JavaScript `Map`s and
plain objects with unique keys are embedded as association lists in
insertion order: setting an existing key replaces it in place, setting a
fresh key appends, exactly like `Map.set` / property assignment.  Each
event handler becomes a pure function from the server state (plus the
handler's inputs, the socket id, the generated random ids and the current
clock) to the new server state and the acknowledgement value.  The
`updateMatch` calls inside the handlers are inlined: an object patch merges
key by key into the old value, an array or primitive patch replaces the
field, a function patch is applied to the previous value.  JavaScript
`undefined` data is embedded with `Option` (`none` = the key is absent /
undefined); the number `NaN` (which `undefined + 1` produces) is embedded
as `none` in an `Option Nat` counter.  A JavaScript `TypeError` (reading a
property of `undefined`) is embedded as `Except.error`.

Layer 2 is a heap model of JavaScript objects used to verify the patch
engine `updateMatch` itself (src/matchHandlers.js lines 100-128), where the
interesting property is about mutation and reference identity: objects and
arrays live at addresses in a heap, values are primitives or references,
and `updateMatch` allocates a shallow copy of its input and writes only to
the copy.
-/

deriving instance DecidableEq for Except

namespace TicTacToe

/-- Embedding of `String.prototype.toUpperCase` for the ASCII ids this
server uses: uppercase every character. -/
def toUpperCase (s : String) : String :=
  String.mk (s.data.map Char.toUpper)

/-! ## Association-list maps (JavaScript `Map` / plain object embedding) -/

/-- Lookup of a key, first occurrence (keys are unique in every reachable
state, as in a JavaScript `Map` or object). -/
def mapGet {α : Type} (m : List (String × α)) (k : String) : Option α :=
  match m with
  | [] => none
  | e :: rest => if e.1 = k then some e.2 else mapGet rest k

/-- Setting a key: replaces an existing entry in place, otherwise appends,
like `Map.set` and object property assignment (insertion order kept). -/
def mapSet {α : Type} (m : List (String × α)) (k : String) (v : α) :
    List (String × α) :=
  match m with
  | [] => [(k, v)]
  | e :: rest => if e.1 = k then (k, v) :: rest else e :: mapSet rest k v

/-- Removal of a key, like `Map.delete` and the `delete` operator. -/
def mapDelete {α : Type} (m : List (String × α)) (k : String) :
    List (String × α) :=
  match m with
  | [] => []
  | e :: rest => if e.1 = k then mapDelete rest k else e :: mapDelete rest k

/-! ## Typed session model (src/matchHandlers.js data) -/

/-- One player record inside `match.players` (see `match:create` and
`match:join`).  `marker`/`name`/`socketId` are `Option` because a player
object built by merging a patch into an empty base has those keys
undefined; `wins = none` stands for `NaN` (produced by `undefined + 1`);
`reconnectionLimit = none` means the key is undefined. -/
structure Player where
  marker : Option Nat
  name : Option String
  wins : Option Nat
  isReady : Bool
  disconnected : Bool
  reconnectionLimit : Option Nat
  socketId : Option String
deriving DecidableEq, Repr

/-- A board cell `{lastTouched, active}`. -/
structure Cell where
  lastTouched : Option String
  active : Bool
deriving DecidableEq, Repr

/-- One session as stored in the `matches` map. -/
structure Match where
  players : List (String × Player)
  cells : List Cell
  playsHistory : List (List Nat)
  currentPlayer : Option String
  lastWinnerId : Option String
deriving DecidableEq, Repr

/-- One entry of the `activePlayers` map: `{socketId, matchId}`. -/
structure ActiveEntry where
  socketId : String
  matchId : String
deriving DecidableEq, Repr

/-- The two module-level maps of src/matchHandlers.js.  The source calls
the first map `matches`; that word is a Lean keyword, so the field is named
`matchesMap`. -/
structure ServerState where
  matchesMap : List (String × Match)
  activePlayers : List (String × ActiveEntry)
deriving DecidableEq, Repr

/-- The payload `matchUpdates` sent with `match:play` / `match:win`. -/
structure MatchUpdates where
  cells : List Cell
  playsHistory : List (List Nat)
  currentPlayer : Option String
  lastWinnerId : Option String
deriving DecidableEq, Repr

/-- Player object built from the empty base `{}` when a patch merges into a
missing key: every field is undefined (falsy). -/
def emptyBasePlayer : Player :=
  { marker := none, name := none, wins := none, isReady := false,
    disconnected := false, reconnectionLimit := none, socketId := none }

/-- Embedding of `getOponentId`: the first key of `match.players` different
from `playerId`, or `undefined`. -/
def getOponentId (m : Match) (playerId : String) : Option String :=
  (m.players.find? (fun e => e.1 ≠ playerId)).map (fun e => e.1)

/-- Embedding of `getPlayerIdByMarker`: the first player entry whose
`marker` equals the argument; `none` embeds the `null` default. -/
def getPlayerIdByMarker (players : List (String × Player)) (marker : Nat) :
    Option String :=
  (players.find? (fun e => e.2.marker = some marker)).map (fun e => e.1)

/-- Embedding of `cleanMatchState`.  `match.players[match.lastWinnerId]?.marker || 0`
is `none`-defaulting lookup followed by `getD 0` (a `0` marker is falsy, so
`|| 0` and `getD 0` agree).  Players are left untouched. -/
def cleanMatchState (m : Match) (isRematch : Bool) : Match :=
  let lastWinnerMarker :=
    (((m.lastWinnerId.bind (fun w => mapGet m.players w)).bind
      (fun p => p.marker)).getD 0)
  { m with
    playsHistory := [[], []],
    cells := List.replicate 9 { lastTouched := none, active := false },
    currentPlayer :=
      getPlayerIdByMarker m.players (if isRematch then lastWinnerMarker else 0) }

/-- Embedding of the `match:create` handler.  The two `generateId()` calls
are passed in as `freshMatchId` / `freshPlayerId`.  Returns the new state
and the acknowledged `{matchId, playerId}`. -/
def createMatch (st : ServerState) (socketId playerName : String)
    (freshMatchId freshPlayerId : String) : ServerState × (String × String) :=
  let creator : Player :=
    { marker := some 0, name := some playerName, wins := some 0,
      isReady := false, disconnected := false, reconnectionLimit := none,
      socketId := some socketId }
  let base : Match :=
    { players := [(freshPlayerId, creator)], cells := [], playsHistory := [],
      currentPlayer := none, lastWinnerId := none }
  ({ st with
      activePlayers := mapSet st.activePlayers freshPlayerId
        { socketId := socketId, matchId := freshMatchId },
      matchesMap := mapSet st.matchesMap freshMatchId (cleanMatchState base false) },
   (freshMatchId, freshPlayerId))

/-- Embedding of `playerId || generateId()`: the supplied id unless it is
absent or falsy (the empty string). -/
def jsOrId (playerId : Option String) (fresh : String) : String :=
  match playerId with
  | some p => if p = "" then fresh else p
  | none => fresh

/-- Embedding of the `match:join` handler.  The lookup uppercases the
supplied id but the commit uses the id as supplied.  The player patch
`{marker:1, name, wins:0, isReady:false}` merges into the existing player
object when the key exists and builds one from the empty base otherwise. -/
def joinMatch (st : ServerState) (socketId matchId playerName : String)
    (playerId : Option String) (freshId : String) :
    ServerState × Except String String :=
  match mapGet st.matchesMap (toUpperCase matchId) with
  | none => (st, Except.error "Match not found")
  | some matchToJoin =>
    if matchToJoin.players.length > 1 then
      (st, Except.error "Match is full")
    else
      let newPlayerId := jsOrId playerId freshId
      let joiner : Player :=
        match mapGet matchToJoin.players newPlayerId with
        | some p =>
          { p with marker := some 1, name := some playerName,
                   wins := some 0, isReady := false }
        | none =>
          { emptyBasePlayer with marker := some 1, name := some playerName,
                                 wins := some 0, isReady := false }
      let updated :=
        { matchToJoin with
            players := mapSet matchToJoin.players newPlayerId joiner }
      ({ st with
          activePlayers := mapSet st.activePlayers newPlayerId
            { socketId := socketId, matchId := matchId },
          matchesMap := mapSet st.matchesMap matchId updated },
       Except.ok newPlayerId)

/-- Embedding of the patch `{players: playersObj}` committed on the expired
branch of `match:lobby`: `updateMatch` merges the patch object key by key,
writing each supplied player record wholesale; keys absent from the patch
are left in place (object merge cannot delete a key). -/
def mergePlayersObj (base patch : List (String × Player)) :
    List (String × Player) :=
  patch.foldl (fun acc e => mapSet acc e.1 e.2) base

/-- Shared tail of the `match:lobby` handler: re-register the participant
index entry, join the room, emit, acknowledge success. -/
def lobbyFinish (st : ServerState) (socketId matchId playerId : String) :
    ServerState × Except String Bool :=
  ({ st with
      activePlayers := mapSet st.activePlayers playerId
        { socketId := socketId, matchId := matchId } },
   Except.ok true)

/-- Embedding of the `match:lobby` handler.  `now` is the clock value of
`new Date().getTime()`. -/
def enterLobby (st : ServerState) (socketId matchId playerId : String)
    (now : Nat) : ServerState × Except String Bool :=
  match mapGet st.matchesMap matchId with
  | none => (st, Except.error "Match not found. Redirecting...")
  | some m =>
    match mapGet m.players playerId with
    | none => (st, Except.error "You are not allowed to play this match")
    | some pl =>
      match pl.reconnectionLimit with
      | some limit =>
        if limit < now then
          let playersObj := mapDelete m.players playerId
          let updated := { m with players := mergePlayersObj m.players playersObj }
          ({ st with matchesMap := mapSet st.matchesMap matchId updated },
           Except.error "Reconnection time window exceeded")
        else
          let updated :=
            { m with players := (mapSet m.players playerId
                { pl with disconnected := false }) }
          lobbyFinish { st with matchesMap := mapSet st.matchesMap matchId updated }
            socketId matchId playerId
      | none => lobbyFinish st socketId matchId playerId

/-- Embedding of the `match:player:toggleReady` handler.  The transform
patch `(prev) => !prev` is applied to the player's previous `isReady`;
merging into a missing key builds a player from the empty base. -/
def toggleReady (st : ServerState) (matchId playerId : String) : ServerState :=
  match mapGet st.matchesMap matchId with
  | none => st
  | some m =>
    let patched : Player :=
      match mapGet m.players playerId with
      | some p => { p with isReady := !p.isReady }
      | none => { emptyBasePlayer with isReady := !false }
    { st with matchesMap := (mapSet st.matchesMap matchId
        { m with players := mapSet m.players playerId patched }) }

/-- Embedding of the `match:win` handler.  The winner patch merges
`{isReady:false, wins: prev => prev + 1}` into the player at `playerId`
(against the empty base when absent, where `undefined + 1` is `NaN`,
embedded as `none`); the opponent patch merges `{isReady:false}` at the key
`getOponentId` produced, the computed key `[undefined]` being the literal
string key "undefined". -/
def winMatch (st : ServerState) (matchId : String) (u : MatchUpdates)
    (playerId : String) : ServerState :=
  match mapGet st.matchesMap matchId with
  | none => st
  | some m =>
    let oponentKey := (getOponentId m playerId).getD "undefined"
    let winnerPatched : Player :=
      match mapGet m.players playerId with
      | some p => { p with isReady := false, wins := p.wins.map (fun w => w + 1) }
      | none => { emptyBasePlayer with isReady := false, wins := none }
    let players1 := mapSet m.players playerId winnerPatched
    let oponentPatched : Player :=
      match mapGet players1 oponentKey with
      | some p => { p with isReady := false }
      | none => { emptyBasePlayer with isReady := false }
    let players2 := mapSet players1 oponentKey oponentPatched
    { st with matchesMap := (mapSet st.matchesMap matchId
        { m with cells := u.cells, playsHistory := u.playsHistory,
                 currentPlayer := u.currentPlayer, players := players2,
                 lastWinnerId := u.lastWinnerId }) }

/-- Embedding of the `match:rematch` handler.  The accept branch reads
`match.players[oponentId].isReady`; when `getOponentId` produced
`undefined` that read raises a `TypeError`, embedded as `Except.error`. -/
def rematchVote (st : ServerState) (matchId playerId : String)
    (wantsToPlayAgain : Bool) : Except Unit ServerState :=
  match mapGet st.matchesMap matchId with
  | none => Except.ok st
  | some m =>
    if !wantsToPlayAgain then
      Except.ok { st with
        matchesMap := mapDelete st.matchesMap matchId,
        activePlayers := mapDelete st.activePlayers playerId }
    else
      match (getOponentId m playerId).bind (fun oid => mapGet m.players oid) with
      | none => Except.error ()
      | some op =>
        if op.isReady then
          let cleanMatch := cleanMatchState m true
          let voterPatched : Player :=
            match mapGet cleanMatch.players playerId with
            | some p => { p with isReady := true }
            | none => { emptyBasePlayer with isReady := true }
          Except.ok { st with matchesMap := (mapSet st.matchesMap matchId
            { cleanMatch with
                players := mapSet cleanMatch.players playerId voterPatched }) }
        else
          let voterPatched : Player :=
            match mapGet m.players playerId with
            | some p => { p with isReady := true }
            | none => { emptyBasePlayer with isReady := true }
          Except.ok { st with matchesMap := (mapSet st.matchesMap matchId
            { m with players := mapSet m.players playerId voterPatched }) }

/-- Embedding of the grace-timer callback scheduled inside the `disconnect`
handler (src/matchHandlers.js lines 520-527).  The returned flag records
whether the session was evicted (and `match:exit` emitted).  The condition
`match && match.players[playerId].disconnected` raises a `TypeError` when
the session exists but the player key is absent. -/
def graceTimerFire (st : ServerState) (matchId playerId : String) :
    Except Unit (ServerState × Bool) :=
  match mapGet st.matchesMap matchId with
  | none => Except.ok (st, false)
  | some m =>
    match mapGet m.players playerId with
    | none => Except.error ()
    | some p =>
      if p.disconnected then
        Except.ok ({ st with matchesMap := mapDelete st.matchesMap matchId }, true)
      else
        Except.ok (st, false)

/-- One `match:join` request: socket id, supplied match id, player name,
optionally supplied player id, and the id `generateId()` would produce. -/
structure JoinReq where
  socketId : String
  matchId : String
  playerName : String
  playerId : Option String
  freshId : String

/-- A sequence of `match:join` calls applied to the server state. -/
def applyJoins (st : ServerState) (reqs : List JoinReq) : ServerState :=
  reqs.foldl
    (fun s r => (joinMatch s r.socketId r.matchId r.playerName r.playerId r.freshId).1)
    st

/-- The invariant of claim C1: every stored session has at most 2 players. -/
def matchesInv (st : ServerState) : Prop :=
  ∀ e ∈ st.matchesMap, e.2.players.length ≤ 2

instance (st : ServerState) : Decidable (matchesInv st) :=
  List.decidableBAll _ _

/-- A `match:join` request used by the claim C1 witness. -/
def reqCarl : JoinReq :=
  { socketId := "s3", matchId := "AB12CD", playerName := "Carl",
    playerId := none, freshId := "F9F9F9" }

/-! ## Concrete fixture states for witnesses and counterexamples -/

/-- A seated creator with some history. -/
def alice : Player :=
  { marker := some 0, name := some "Alice", wins := some 2, isReady := false,
    disconnected := false, reconnectionLimit := none, socketId := some "s1" }

/-- A seated joiner who has already voted ready. -/
def bob : Player :=
  { marker := some 1, name := some "Bob", wins := some 1, isReady := true,
    disconnected := false, reconnectionLimit := none, socketId := none }

/-- A full two-player session. -/
def mFull : Match :=
  { players := [("P1", alice), ("P2", bob)],
    cells := List.replicate 9 { lastTouched := none, active := false },
    playsHistory := [[0], []], currentPlayer := some "P2",
    lastWinnerId := none }

/-- Server state holding the full session `mFull` under key "AB12CD". -/
def stAB : ServerState :=
  { matchesMap := [("AB12CD", mFull)],
    activePlayers :=
      [("P1", { socketId := "s1", matchId := "AB12CD" }),
       ("P2", { socketId := "s2", matchId := "AB12CD" })] }

/-- Alice carrying reconnection state (disconnected at deadline 100000). -/
def aliceRec : Player :=
  { alice with disconnected := true, reconnectionLimit := some 100000 }

/-- A two-player session in which "P1" is disconnected with a deadline. -/
def mRec : Match :=
  { mFull with players := [("P1", aliceRec), ("P2", bob)] }

/-- Server state holding `mRec` under key "AB12CD". -/
def stRec : ServerState :=
  { matchesMap := [("AB12CD", mRec)],
    activePlayers := [("P2", { socketId := "s2", matchId := "AB12CD" })] }

/-- A session holding only "P2" (the state claim C8 describes: the session
exists but "P1" has been removed from it). -/
def mOnlyP2 : Match :=
  { mFull with players := [("P2", bob)] }

/-- Server state holding `mOnlyP2` under key "AB12CD". -/
def stOnlyP2 : ServerState :=
  { matchesMap := [("AB12CD", mOnlyP2)], activePlayers := [] }

/-- A one-player session (only the creator "P1"). -/
def mOne : Match :=
  { mFull with players := [("P1", alice)] }

/-- Server state holding the one-player session under the uppercase key. -/
def stOne : ServerState :=
  { matchesMap := [("AB12CD", mOne)],
    activePlayers := [("P1", { socketId := "s1", matchId := "AB12CD" })] }

/-- A `match:win` payload whose `lastWinnerId` field names an id other than
the reported winner. -/
def uOdd : MatchUpdates :=
  { cells := List.replicate 9 { lastTouched := none, active := false },
    playsHistory := [[], []], currentPlayer := some "P1",
    lastWinnerId := some "QQQQQQ" }

/-! ## Layer 2: heap model of JavaScript objects and the patch engine

The patch engine `updateMatch` (src/matchHandlers.js lines 100-128) is
verified against a heap model, because its contract is about mutation and
reference identity.  Objects and arrays live at addresses of a heap (a
list of `JSObj`, address = index, allocation = append); values are
primitives or references.  A patch value mirrors the runtime dispatch of
`updateMatch` on `typeof val`: `null` is skipped, an array is stored by
reference wholesale, a plain object recurses as a nested patch, a function
is applied to the previous value, anything else is stored literally. -/

/-- A JavaScript value: a primitive or a reference to a heap object. -/
inductive JSVal where
  | vUndefined : JSVal
  | vNull : JSVal
  | vBool (b : Bool) : JSVal
  | vNum (n : Int) : JSVal
  | vStr (s : String) : JSVal
  | vRef (addr : Nat) : JSVal
deriving DecidableEq, Repr

/-- A heap object: a plain object (ordered fields) or an array. -/
inductive JSObj where
  | obj (fields : List (String × JSVal)) : JSObj
  | arr (elems : List JSVal) : JSObj
deriving DecidableEq, Repr

/-- The heap: address = index, allocation = append at the end. -/
abbrev Heap : Type := List JSObj

/-- One value of the `updates` argument of `updateMatch`, split by the
`typeof` dispatch the function performs (lines 103-124): `pNull` is the
skipped `null` case, `pArr` an array (stored by reference, no merge),
`pObj` a plain object (nested patch), `pFun` a unary transform, `pLit` any
other literal (string, number, boolean, undefined). -/
inductive PVal where
  | pNull : PVal
  | pLit (v : JSVal) : PVal
  | pArr (addr : Nat) : PVal
  | pObj (fields : List (String × PVal)) : PVal
  | pFun (f : JSVal → JSVal) : PVal

/-- A canonical array index: JavaScript treats the key `k` as an array
index exactly when `k` is the canonical decimal spelling of a number. -/
def arrIndex (k : String) : Option Nat :=
  match k.toNat? with
  | some i => if toString i = k then some i else none
  | none => none

/-- Property read `o[k]` on a heap object; a missing key is `undefined`. -/
def objGetField (o : JSObj) (k : String) : JSVal :=
  match o with
  | JSObj.obj fs => (mapGet fs k).getD JSVal.vUndefined
  | JSObj.arr es =>
    match arrIndex k with
    | some i => (es[i]?).getD JSVal.vUndefined
    | none => JSVal.vUndefined

/-- Property write `o[k] = v` on a heap object.  A non-index write on an
array is dropped: no call site of `updateMatch` ever patches inside an
array (arrays are replaced wholesale), so this case is unreachable. -/
def objSetField (o : JSObj) (k : String) (v : JSVal) : JSObj :=
  match o with
  | JSObj.obj fs => JSObj.obj (mapSet fs k v)
  | JSObj.arr es =>
    match arrIndex k with
    | some i => JSObj.arr (es.set i v)
    | none => JSObj.arr es

/-- Read field `k` of the object at address `a`. -/
def getField (h : Heap) (a : Nat) (k : String) : JSVal :=
  match h[a]? with
  | some o => objGetField o k
  | none => JSVal.vUndefined

/-- Write field `k` of the object at address `a` in place. -/
def setFieldH (h : Heap) (a : Nat) (k : String) (v : JSVal) : Heap :=
  match h[a]? with
  | some o => h.set a (objSetField o k v)
  | none => h

/-- Embedding of `Array.isArray(obj) ? [...obj] : {...obj}`: the shallow
copy `updateMatch` allocates.  Spreading a non-object base (`undefined`,
`null`, a number or a boolean, the bases reachable here) yields an empty
object. -/
def baseCopy (h : Heap) (objv : JSVal) : JSObj :=
  match objv with
  | JSVal.vRef a => (h[a]?).getD (JSObj.obj [])
  | _ => JSObj.obj []

mutual

/-- Embedding of `updateMatch(obj, updates)` (src/matchHandlers.js lines
100-128): allocate a shallow copy of `obj` at a fresh address, apply the
updates to the copy, and return a reference to the copy. -/
def updateMatch (h : Heap) (objv : JSVal) (ups : List (String × PVal)) :
    Heap × JSVal :=
  (applyUpds (h ++ [baseCopy h objv]) h.length ups, JSVal.vRef h.length)
termination_by 2 * sizeOf ups + 1

/-- The `Object.entries(updates).forEach` loop of `updateMatch`, writing
into the fresh copy at address `a`: `null` is skipped, an array is stored
by reference, a nested object patch recurses through `updateMatch` on the
copy's current value at that key, a function is applied to the current
value, and any other literal is stored. -/
def applyUpds (h : Heap) (a : Nat) (l : List (String × PVal)) : Heap :=
  match l with
  | [] => h
  | (_, PVal.pNull) :: rest => applyUpds h a rest
  | (k, PVal.pArr r) :: rest =>
    applyUpds (setFieldH h a k (JSVal.vRef r)) a rest
  | (k, PVal.pObj fs) :: rest =>
    let p := updateMatch h (getField h a k) fs
    applyUpds (setFieldH p.1 a k p.2) a rest
  | (k, PVal.pFun f) :: rest =>
    applyUpds (setFieldH h a k (f (getField h a k))) a rest
  | (k, PVal.pLit v) :: rest => applyUpds (setFieldH h a k v) a rest
termination_by 2 * sizeOf l

end

/-- A concrete two-field snapshot object for the claim C2 witness. -/
def heapX : Heap := [JSObj.obj [("x", JSVal.vNum 1), ("y", JSVal.vNum 2)]]

/-- A concrete patch touching only the key "y". -/
def upsX : List (String × PVal) := [("y", PVal.pLit (JSVal.vNum 7))]

/-! ## Lemmas about the map embedding -/

theorem mapGet_mapSet_self {α : Type} (m : List (String × α)) (k : String)
    (v : α) : mapGet (mapSet m k v) k = some v := by
  induction m with
  | nil => simp [mapGet, mapSet]
  | cons e rest ih =>
    by_cases h : e.1 = k
    · simp [mapGet, mapSet, h]
    · simp [mapGet, mapSet, h, ih]

theorem mapGet_mapSet_ne {α : Type} (m : List (String × α)) (k k' : String)
    (v : α) (h : k' ≠ k) : mapGet (mapSet m k v) k' = mapGet m k' := by
  induction m with
  | nil => simp [mapGet, mapSet, Ne.symm h]
  | cons e rest ih =>
    by_cases he : e.1 = k
    · subst he
      have hne : ¬ e.1 = k' := fun h' => h h'.symm
      simp [mapGet, mapSet, hne]
    · simp [mapGet, mapSet, he, ih]

theorem length_mapSet_le {α : Type} (m : List (String × α)) (k : String)
    (v : α) : (mapSet m k v).length ≤ m.length + 1 := by
  induction m with
  | nil => simp [mapSet]
  | cons e rest ih =>
    by_cases h : e.1 = k
    · simp [mapSet, h]
    · simp only [mapSet, if_neg h, List.length_cons]
      omega

theorem length_mapSet_not_mem {α : Type} (m : List (String × α)) (k : String)
    (v : α) (h : m.any (fun e => e.1 = k) = false) :
    (mapSet m k v).length = m.length + 1 := by
  induction m with
  | nil => simp [mapSet]
  | cons e rest ih =>
    simp only [List.any_cons, Bool.or_eq_false_iff] at h
    have he : ¬ e.1 = k := by simpa using h.1
    simp [mapSet, he, ih h.2]

theorem mem_mapSet {α : Type} (m : List (String × α)) (k : String) (v : α)
    (e' : String × α) (h : e' ∈ mapSet m k v) : e' = (k, v) ∨ e' ∈ m := by
  induction m with
  | nil => simpa [mapSet] using h
  | cons e rest ih =>
    by_cases he : e.1 = k
    · simp only [mapSet, if_pos he, List.mem_cons] at h
      rcases h with h | h
      · exact Or.inl h
      · exact Or.inr (List.mem_cons_of_mem _ h)
    · simp only [mapSet, if_neg he, List.mem_cons] at h
      rcases h with h | h
      · exact Or.inr (by simp [h])
      · rcases ih h with h' | h'
        · exact Or.inl h'
        · exact Or.inr (List.mem_cons_of_mem _ h')

theorem mapGet_mapDelete_self {α : Type} (m : List (String × α)) (k : String) :
    mapGet (mapDelete m k) k = none := by
  induction m with
  | nil => rfl
  | cons e rest ih =>
    by_cases h : e.1 = k
    · simpa [mapDelete, h] using ih
    · simpa [mapDelete, h, mapGet] using ih

theorem mapGet_mapDelete_ne {α : Type} (m : List (String × α)) (k k' : String)
    (h : k' ≠ k) : mapGet (mapDelete m k) k' = mapGet m k' := by
  induction m with
  | nil => rfl
  | cons e rest ih =>
    by_cases he : e.1 = k
    · have hne : ¬ e.1 = k' := fun h' => h (h'.symm.trans he)
      simp [mapDelete, he, mapGet, hne, ih, Ne.symm h]
    · simp [mapDelete, he, mapGet, ih]

theorem getOponentId_ne (m : Match) (pid q : String)
    (h : getOponentId m pid = some q) : q ≠ pid := by
  unfold getOponentId at h
  rcases Option.map_eq_some'.1 h with ⟨e, hfind, he⟩
  have hp := List.find?_some hfind
  subst he
  simpa using hp

/-! ## Lemmas about the heap model -/

theorem length_setFieldH (h : Heap) (a : Nat) (k : String) (v : JSVal) :
    (setFieldH h a k v).length = h.length := by
  unfold setFieldH
  split
  · simp
  · rfl

theorem getElem?_setFieldH_ne (h : Heap) (a : Nat) (k : String) (v : JSVal)
    (b : Nat) (hb : b ≠ a) : (setFieldH h a k v)[b]? = h[b]? := by
  unfold setFieldH
  split
  · exact List.getElem?_set_ne (Ne.symm hb)
  · rfl

theorem getField_eq_of_getElem? (h1 h2 : Heap) (a : Nat) (k : String)
    (he : h1[a]? = h2[a]?) : getField h1 a k = getField h2 a k := by
  unfold getField
  rw [he]

theorem arrIndex_toString (k : String) (i : Nat) (h : arrIndex k = some i) :
    toString i = k := by
  unfold arrIndex at h
  cases hk : k.toNat? with
  | none => rw [hk] at h; exact absurd h (by simp)
  | some j =>
    rw [hk] at h
    by_cases hj : toString j = k
    · rw [show (match some j with
          | some i => if toString i = k then some i else none
          | none => (none : Option Nat))
          = if toString j = k then some j else none from rfl,
        if_pos hj] at h
      injection h with h
      subst h
      exact hj
    · rw [show (match some j with
          | some i => if toString i = k then some i else none
          | none => (none : Option Nat))
          = if toString j = k then some j else none from rfl,
        if_neg hj] at h
      exact absurd h (by simp)

theorem objGetField_objSetField_ne (o : JSObj) (k k' : String) (v : JSVal)
    (hk : k ≠ k') : objGetField (objSetField o k' v) k = objGetField o k := by
  cases o with
  | obj fs => simp [objGetField, objSetField, mapGet_mapSet_ne fs k' k v hk]
  | arr es =>
    simp only [objSetField]
    cases hk' : arrIndex k' with
    | none => rfl
    | some i' =>
      simp only [objGetField]
      cases hk2 : arrIndex k with
      | none => rfl
      | some i =>
        have hii : i ≠ i' := by
          intro he
          exact hk (by rw [← arrIndex_toString k i hk2,
            ← arrIndex_toString k' i' hk', he])
        show ((es.set i' v)[i]?).getD JSVal.vUndefined
          = (es[i]?).getD JSVal.vUndefined
        rw [List.getElem?_set_ne (Ne.symm hii)]

theorem getField_setFieldH_ne (h : Heap) (a : Nat) (k k' : String)
    (v : JSVal) (hk : k ≠ k') :
    getField (setFieldH h a k' v) a k = getField h a k := by
  unfold setFieldH
  split
  next o ho =>
    have halt : a < h.length := (List.getElem?_eq_some.mp ho).1
    unfold getField
    rw [List.getElem?_set_eq_of_lt _ halt, ho]
    exact objGetField_objSetField_ne o k k' v hk
  next => rfl

/-- The write discipline of `applyUpds`: working on the copy at address
`a`, it only grows the heap and only ever writes at `a` or at fresh
addresses, so every pre-existing entry other than `a` keeps its value. -/
theorem applyUpds_preserve (l : List (String × PVal)) (h : Heap) (a : Nat) :
    h.length ≤ (applyUpds h a l).length
    ∧ ∀ b, b < h.length → b ≠ a → (applyUpds h a l)[b]? = h[b]? := by
  match l with
  | [] => simp [applyUpds]
  | (k, PVal.pNull) :: rest =>
    simpa [applyUpds] using applyUpds_preserve rest h a
  | (k, PVal.pArr r) :: rest =>
    have hstep : (setFieldH h a k (JSVal.vRef r)).length = h.length :=
      length_setFieldH h a k (JSVal.vRef r)
    have ih := applyUpds_preserve rest (setFieldH h a k (JSVal.vRef r)) a
    refine ⟨?_, ?_⟩
    · simp only [applyUpds]
      exact le_trans (le_of_eq hstep.symm) ih.1
    · intro b hb hba
      simp only [applyUpds]
      rw [ih.2 b (by rw [hstep]; exact hb) hba,
        getElem?_setFieldH_ne h a k (JSVal.vRef r) b hba]
  | (k, PVal.pFun f) :: rest =>
    have hstep : (setFieldH h a k (f (getField h a k))).length = h.length :=
      length_setFieldH h a k (f (getField h a k))
    have ih := applyUpds_preserve rest
      (setFieldH h a k (f (getField h a k))) a
    refine ⟨?_, ?_⟩
    · simp only [applyUpds]
      exact le_trans (le_of_eq hstep.symm) ih.1
    · intro b hb hba
      simp only [applyUpds]
      rw [ih.2 b (by rw [hstep]; exact hb) hba,
        getElem?_setFieldH_ne h a k (f (getField h a k)) b hba]
  | (k, PVal.pLit v) :: rest =>
    have hstep : (setFieldH h a k v).length = h.length :=
      length_setFieldH h a k v
    have ih := applyUpds_preserve rest (setFieldH h a k v) a
    refine ⟨?_, ?_⟩
    · simp only [applyUpds]
      exact le_trans (le_of_eq hstep.symm) ih.1
    · intro b hb hba
      simp only [applyUpds]
      rw [ih.2 b (by rw [hstep]; exact hb) hba,
        getElem?_setFieldH_ne h a k v b hba]
  | (k, PVal.pObj fs) :: rest =>
    have ihf := applyUpds_preserve fs
      (h ++ [baseCopy h (getField h a k)]) h.length
    have hmid_len : h.length ≤ ((updateMatch h (getField h a k) fs).1).length := by
      simp only [updateMatch]
      refine le_trans ?_ ihf.1
      simp
    have hmid_pres : ∀ b, b < h.length →
        ((updateMatch h (getField h a k) fs).1)[b]? = h[b]? := by
      intro b hb
      simp only [updateMatch]
      rw [ihf.2 b (by simp; omega) (by omega)]
      exact List.getElem?_append_left hb
    have hstep : (setFieldH (updateMatch h (getField h a k) fs).1 a k
        (updateMatch h (getField h a k) fs).2).length
        = ((updateMatch h (getField h a k) fs).1).length :=
      length_setFieldH _ a k _
    have ih := applyUpds_preserve rest
      (setFieldH (updateMatch h (getField h a k) fs).1 a k
        (updateMatch h (getField h a k) fs).2) a
    refine ⟨?_, ?_⟩
    · simp only [applyUpds]
      exact le_trans hmid_len (le_trans (le_of_eq hstep.symm) ih.1)
    · intro b hb hba
      simp only [applyUpds]
      rw [ih.2 b (by rw [hstep]; omega) hba,
        getElem?_setFieldH_ne _ a k _ b hba, hmid_pres b hb]
termination_by sizeOf l

/-- Keys the patch does not mention keep the value the shallow copy took
from the original object. -/
theorem applyUpds_untouched (l : List (String × PVal)) (a : Nat)
    (k : String) :
    ∀ h : Heap, k ∉ l.map (fun e => e.1) → a < h.length →
      getField (applyUpds h a l) a k = getField h a k := by
  induction l with
  | nil => intro h _ _; simp [applyUpds]
  | cons e rest ih =>
    obtain ⟨k', v⟩ := e
    intro h hk ha
    simp only [List.map_cons, List.mem_cons] at hk
    push_neg at hk
    obtain ⟨hk1, hk2⟩ := hk
    cases v with
    | pNull => simpa [applyUpds] using ih h hk2 ha
    | pArr r =>
      simp only [applyUpds]
      rw [ih _ hk2 (by rw [length_setFieldH]; exact ha)]
      exact getField_setFieldH_ne h a k k' _ hk1
    | pFun f =>
      simp only [applyUpds]
      rw [ih _ hk2 (by rw [length_setFieldH]; exact ha)]
      exact getField_setFieldH_ne h a k k' _ hk1
    | pLit v =>
      simp only [applyUpds]
      rw [ih _ hk2 (by rw [length_setFieldH]; exact ha)]
      exact getField_setFieldH_ne h a k k' _ hk1
    | pObj fs =>
      have hpres := applyUpds_preserve fs
        (h ++ [baseCopy h (getField h a k')]) h.length
      have hmida : ((updateMatch h (getField h a k') fs).1)[a]? = h[a]? := by
        simp only [updateMatch]
        rw [hpres.2 a (by simp; omega) (by omega)]
        exact List.getElem?_append_left ha
      have hlen : h.length ≤ ((updateMatch h (getField h a k') fs).1).length := by
        simp only [updateMatch]
        refine le_trans ?_ hpres.1
        simp
      simp only [applyUpds]
      rw [ih _ hk2 (by rw [length_setFieldH]; omega)]
      rw [getField_setFieldH_ne _ _ _ _ _ hk1]
      exact getField_eq_of_getElem? _ _ _ _ hmida

/-! ## Claim C2 -/

/-- Claim C2: `updateMatch(snapshot, patch)` returns a reference to a new
top-level container at a fresh address, leaves every pre-existing heap
entry (the original snapshot and everything it references) unchanged, and
every field the patch does not mention holds in the result the same value
(the same reference, for objects) as in the original snapshot. -/
theorem updateMatch_no_mutation (h : Heap) (a : Nat)
    (ups : List (String × PVal)) (ha : a < h.length) :
    (updateMatch h (JSVal.vRef a) ups).2 = JSVal.vRef h.length
    ∧ a ≠ h.length
    ∧ (∀ b, b < h.length → ((updateMatch h (JSVal.vRef a) ups).1)[b]? = h[b]?)
    ∧ (∀ k, k ∉ ups.map (fun e => e.1) →
        getField (updateMatch h (JSVal.vRef a) ups).1 h.length k
          = getField h a k) := by
  have hpres := applyUpds_preserve ups
    (h ++ [baseCopy h (JSVal.vRef a)]) h.length
  refine ⟨by simp [updateMatch], Nat.ne_of_lt ha, ?_, ?_⟩
  · intro b hb
    simp only [updateMatch]
    rw [hpres.2 b (by simp; omega) (by omega)]
    exact List.getElem?_append_left hb
  · intro k hk
    simp only [updateMatch]
    rw [applyUpds_untouched ups h.length k _ hk (by simp)]
    have hcopy : (h ++ [baseCopy h (JSVal.vRef a)])[h.length]?
        = some (baseCopy h (JSVal.vRef a)) := List.getElem?_concat_length ..
    unfold getField
    rw [hcopy]
    cases hho : h[a]? with
    | none =>
      exact absurd (List.getElem?_eq_none_iff.mp hho) (by omega)
    | some o =>
      show objGetField ((h[a]?).getD (JSObj.obj [])) k = objGetField o k
      rw [hho]
      rfl

/-- Witness for claim C2 at a concrete heap and patch. -/
theorem updateMatch_no_mutation_witness :
    0 < heapX.length
    ∧ ((updateMatch heapX (JSVal.vRef 0) upsX).2 = JSVal.vRef heapX.length
      ∧ 0 ≠ heapX.length
      ∧ (∀ b, b < heapX.length →
          ((updateMatch heapX (JSVal.vRef 0) upsX).1)[b]? = heapX[b]?)
      ∧ (∀ k, k ∉ upsX.map (fun e => e.1) →
          getField (updateMatch heapX (JSVal.vRef 0) upsX).1 heapX.length k
            = getField heapX 0 k)) :=
  ⟨by decide, updateMatch_no_mutation heapX 0 upsX (by decide)⟩


/-! ## Claim C1 -/

/-- Helper for claim C1: one `match:join` call preserves the invariant that
every stored session has at most 2 players. -/
theorem joinMatch_preserves_inv (st : ServerState) (r : JoinReq)
    (hinv : matchesInv st) :
    matchesInv (joinMatch st r.socketId r.matchId r.playerName r.playerId
      r.freshId).1 := by
  unfold joinMatch
  cases hm : mapGet st.matchesMap (toUpperCase r.matchId) with
  | none => simpa using hinv
  | some mj =>
    by_cases hfull : mj.players.length > 1
    · simpa [hfull] using hinv
    · simp only [if_neg hfull]
      intro e he
      rcases mem_mapSet _ _ _ _ he with rfl | he'
      · exact le_trans (length_mapSet_le _ _ _) (by omega)
      · exact hinv e he'

/-- Claim C1: after any sequence of `match:join` calls every stored session
still has at most 2 players, and a join on a session that already has 2
seated players is acknowledged with the Full error and leaves the whole
server state unchanged. -/
theorem join_at_most_two_players (st : ServerState) (reqs : List JoinReq) :
    (matchesInv st → matchesInv (applyJoins st reqs))
    ∧ (∀ sock mid name pid fresh m,
        mapGet st.matchesMap (toUpperCase mid) = some m →
        m.players.length > 1 →
        joinMatch st sock mid name pid fresh
          = (st, Except.error "Match is full")) := by
  constructor
  · induction reqs generalizing st with
    | nil => intro hinv; simpa [applyJoins] using hinv
    | cons r rest ih =>
      intro hinv
      have h1 := joinMatch_preserves_inv st r hinv
      simpa [applyJoins] using ih _ h1
  · intro sock mid name pid fresh m hm hfull
    unfold joinMatch
    rw [hm]
    simp [hfull]

/-- Witness for claim C1: a concrete full session rejects a third join with
the Full error and the invariant is preserved across a join sequence. -/
theorem join_at_most_two_players_witness :
    matchesInv stAB
    ∧ matchesInv (applyJoins stAB [reqCarl])
    ∧ mapGet stAB.matchesMap (toUpperCase "AB12CD") = some mFull
    ∧ mFull.players.length > 1
    ∧ joinMatch stAB "s3" "AB12CD" "Carl" none "F9F9F9"
        = (stAB, Except.error "Match is full") :=
  ⟨by decide,
   (join_at_most_two_players stAB [reqCarl]).1 (by decide),
   by decide, by decide,
   (join_at_most_two_players stAB [reqCarl]).2 "s3" "AB12CD" "Carl" none
     "F9F9F9" mFull (by decide) (by decide)⟩

/-! ## Claim C3 -/

/-- Counterexample for claim C3 as stated: with winner id "P1", the
committed `lastWinnerId` is the payload's `lastWinnerId` field ("QQQQQQ"),
not the winner id. -/
theorem win_lastWinnerId_not_winner_cex :
    (mapGet (winMatch stAB "AB12CD" uOdd "P1").matchesMap "AB12CD").map
      Match.lastWinnerId = some (some "QQQQQQ")
    ∧ (some (some "QQQQQQ") : Option (Option String)) ≠ some (some "P1") := by
  decide

/-- Claim C3 (amended): `match:win` with winner id w increments exactly w's
wins, leaves the opponent's wins unchanged, resets both `isReady` flags,
and sets `lastWinnerId` to the payload's `lastWinnerId` field. -/
theorem win_updates_winner_amended (st : ServerState) (mid : String)
    (u : MatchUpdates) (w q : String) (m : Match) (wp qp : Player) (n : Nat)
    (hm : mapGet st.matchesMap mid = some m)
    (hq : getOponentId m w = some q)
    (hwp : mapGet m.players w = some wp)
    (hqp : mapGet m.players q = some qp)
    (hwins : wp.wins = some n) :
    ∃ m', mapGet (winMatch st mid u w).matchesMap mid = some m'
      ∧ mapGet m'.players w
          = some { wp with isReady := false, wins := some (n + 1) }
      ∧ mapGet m'.players q = some { qp with isReady := false }
      ∧ m'.lastWinnerId = u.lastWinnerId := by
  have hqw : q ≠ w := getOponentId_ne m w q hq
  have h1 : mapGet (mapSet m.players w
      { wp with isReady := false, wins := some (n + 1) }) q = some qp := by
    rw [mapGet_mapSet_ne _ _ _ _ hqw]; exact hqp
  unfold winMatch
  rw [hm]
  simp only [hq, Option.getD_some, hwp, hwins, Option.map_some']
  rw [h1]
  refine ⟨_, mapGet_mapSet_self _ _ _, ?_, mapGet_mapSet_self _ _ _, rfl⟩
  rw [mapGet_mapSet_ne _ _ _ _ (Ne.symm hqw)]
  exact mapGet_mapSet_self _ _ _

/-- Witness for the amended claim C3 at a concrete two-player session. -/
theorem win_updates_winner_amended_witness :
    mapGet stAB.matchesMap "AB12CD" = some mFull
    ∧ getOponentId mFull "P1" = some "P2"
    ∧ mapGet mFull.players "P1" = some alice
    ∧ mapGet mFull.players "P2" = some bob
    ∧ alice.wins = some 2
    ∧ (∃ m', mapGet (winMatch stAB "AB12CD" uOdd "P1").matchesMap "AB12CD"
          = some m'
        ∧ mapGet m'.players "P1"
            = some { alice with isReady := false, wins := some 3 }
        ∧ mapGet m'.players "P2" = some { bob with isReady := false }
        ∧ m'.lastWinnerId = uOdd.lastWinnerId) :=
  ⟨by decide, by decide, by decide, by decide, by decide,
   win_updates_winner_amended stAB "AB12CD" uOdd "P1" "P2" mFull alice bob 2
     (by decide) (by decide) (by decide) (by decide) (by decide)⟩

/-! ## Claim C4 -/

/-- Counterexample for claim C4 as stated: a rematch vote arriving while
the opponent is already ready resets the board but leaves BOTH players
ready (`cleanMatchState` never touches `isReady`; the voter is explicitly
set ready and the opponent stays ready). -/
theorem rematch_reset_ready_cex :
    (rematchVote stAB "AB12CD" "P1" true).toOption.bind
      (fun s => (mapGet s.matchesMap "AB12CD").map
        (fun m => ((mapGet m.players "P1").map Player.isReady,
                   (mapGet m.players "P2").map Player.isReady)))
      = some (some true, some true)
    ∧ (some true : Option Bool) ≠ some false := by
  decide

/-- Claim C4 (amended): when a rematch vote arrives while the opponent's
`isReady` is already true, the board is reset but the voter's `isReady`
is set to true and the opponent's record (with `isReady` true) is left
unchanged; neither flag is reset to false. -/
theorem rematch_reset_keeps_ready_amended (st : ServerState)
    (mid p q : String) (m : Match) (pp qp : Player)
    (hm : mapGet st.matchesMap mid = some m)
    (hq : getOponentId m p = some q)
    (hqp : mapGet m.players q = some qp)
    (hready : qp.isReady = true)
    (hpp : mapGet m.players p = some pp) :
    ∃ st' m', rematchVote st mid p true = Except.ok st'
      ∧ mapGet st'.matchesMap mid = some m'
      ∧ m'.cells = List.replicate 9 { lastTouched := none, active := false }
      ∧ m'.playsHistory = [[], []]
      ∧ mapGet m'.players p = some { pp with isReady := true }
      ∧ mapGet m'.players q = some qp := by
  have hqp' : q ≠ p := getOponentId_ne m p q hq
  unfold rematchVote
  rw [hm]
  simp only [Bool.not_true, Bool.false_eq_true, if_false, hq, Option.some_bind,
    hqp, hready, if_true]
  have hclean : (cleanMatchState m true).players = m.players := rfl
  rw [hclean, hpp]
  refine ⟨_, _, rfl, mapGet_mapSet_self _ _ _, rfl, rfl,
    mapGet_mapSet_self _ _ _, ?_⟩
  rw [mapGet_mapSet_ne _ _ _ _ hqp']
  exact hqp

/-- Witness for the amended claim C4 at a concrete session whose opponent
has already voted ready. -/
theorem rematch_reset_keeps_ready_amended_witness :
    mapGet stAB.matchesMap "AB12CD" = some mFull
    ∧ getOponentId mFull "P1" = some "P2"
    ∧ mapGet mFull.players "P2" = some bob
    ∧ bob.isReady = true
    ∧ mapGet mFull.players "P1" = some alice
    ∧ (∃ st' m', rematchVote stAB "AB12CD" "P1" true = Except.ok st'
        ∧ mapGet st'.matchesMap "AB12CD" = some m'
        ∧ m'.cells = List.replicate 9 { lastTouched := none, active := false }
        ∧ m'.playsHistory = [[], []]
        ∧ mapGet m'.players "P1" = some { alice with isReady := true }
        ∧ mapGet m'.players "P2" = some bob) :=
  ⟨by decide, by decide, by decide, by decide, by decide,
   rematch_reset_keeps_ready_amended stAB "AB12CD" "P1" "P2" mFull alice bob
     (by decide) (by decide) (by decide) (by decide) (by decide)⟩

/-! ## Claim C5 -/

/-- Counterexample for claim C5 as stated: a reconnection inside the grace
window clears `disconnected` but does NOT clear the deadline — the
committed patch is only `{disconnected: false}`, so `reconnectionLimit`
stays set. -/
theorem enterLobby_deadline_not_cleared_cex :
    (enterLobby stRec "s9" "AB12CD" "P1" 50000).2 = Except.ok true
    ∧ ((mapGet (enterLobby stRec "s9" "AB12CD" "P1" 50000).1.matchesMap
        "AB12CD").bind (fun m => mapGet m.players "P1")).map
        Player.reconnectionLimit = some (some 100000)
    ∧ (some (some 100000) : Option (Option Nat)) ≠ some none := by
  decide

/-- Claim C5 (amended): for a seated player carrying reconnection state
whose deadline has not passed, `match:lobby` succeeds and clears the
`disconnected` flag, leaving `reconnectionLimit` still set and `wins`,
`marker` and `name` unchanged. -/
theorem enterLobby_within_grace_amended (st : ServerState)
    (sock mid pid : String) (now limit : Nat) (m : Match) (pl : Player)
    (hm : mapGet st.matchesMap mid = some m)
    (hpl : mapGet m.players pid = some pl)
    (hlim : pl.reconnectionLimit = some limit)
    (hnow : ¬ limit < now) :
    (enterLobby st sock mid pid now).2 = Except.ok true
    ∧ ∃ pl', ((mapGet (enterLobby st sock mid pid now).1.matchesMap mid).bind
          (fun m' => mapGet m'.players pid)) = some pl'
        ∧ pl'.disconnected = false
        ∧ pl'.reconnectionLimit = some limit
        ∧ pl'.wins = pl.wins ∧ pl'.marker = pl.marker ∧ pl'.name = pl.name := by
  unfold enterLobby
  rw [hm]
  simp only [hpl, hlim, if_neg hnow]
  unfold lobbyFinish
  refine ⟨rfl, { pl with disconnected := false, reconnectionLimit := some limit }, ?_, rfl, rfl, rfl, rfl, rfl⟩
  rw [mapGet_mapSet_self]
  simp only [Option.some_bind]
  exact mapGet_mapSet_self _ _ _

/-- Witness for the amended claim C5: a concrete disconnected player
reconnecting inside the window. -/
theorem enterLobby_within_grace_amended_witness :
    mapGet stRec.matchesMap "AB12CD" = some mRec
    ∧ mapGet mRec.players "P1" = some aliceRec
    ∧ aliceRec.reconnectionLimit = some 100000
    ∧ ¬ (100000 : Nat) < 50000
    ∧ ((enterLobby stRec "s9" "AB12CD" "P1" 50000).2 = Except.ok true
      ∧ ∃ pl', ((mapGet (enterLobby stRec "s9" "AB12CD" "P1" 50000).1.matchesMap
            "AB12CD").bind (fun m' => mapGet m'.players "P1")) = some pl'
          ∧ pl'.disconnected = false
          ∧ pl'.reconnectionLimit = some 100000
          ∧ pl'.wins = aliceRec.wins ∧ pl'.marker = aliceRec.marker
          ∧ pl'.name = aliceRec.name) :=
  ⟨by decide, by decide, by decide, by decide,
   enterLobby_within_grace_amended stRec "s9" "AB12CD" "P1" 50000 100000 mRec
     aliceRec (by decide) (by decide) (by decide) (by decide)⟩

/-! ## Claim C6 -/

/-- Claim C6 at its failing input: after the grace deadline has passed,
`match:lobby` does fail with the ReconnectWindowExpired error and the
session stays in the store, but the player is NOT removed from the
session's players mapping — the handler builds a copy of `players` with
the key deleted and commits it through `updateMatch`, whose object patch
merges key by key and cannot delete a key, so the committed state still
contains the expired player unchanged. -/
theorem enterLobby_expired_keeps_player :
    (enterLobby stRec "s9" "AB12CD" "P1" 200000).2
      = Except.error "Reconnection time window exceeded"
    ∧ (mapGet (enterLobby stRec "s9" "AB12CD" "P1" 200000).1.matchesMap
        "AB12CD").isSome = true
    ∧ ((mapGet (enterLobby stRec "s9" "AB12CD" "P1" 200000).1.matchesMap
        "AB12CD").bind (fun m => mapGet m.players "P1")) = some aliceRec := by
  decide

/-! ## Claim C7 -/

/-- Claim C7: a declining rematch vote evicts the session immediately, and
a subsequent `match:lobby` on that session id fails with NotFound. -/
theorem rematch_decline_evicts (st : ServerState) (mid p sock p2 : String)
    (now : Nat) (m : Match) (hm : mapGet st.matchesMap mid = some m) :
    ∃ st', rematchVote st mid p false = Except.ok st'
      ∧ mapGet st'.matchesMap mid = none
      ∧ enterLobby st' sock mid p2 now
          = (st', Except.error "Match not found. Redirecting...") := by
  refine ⟨{ st with matchesMap := mapDelete st.matchesMap mid, activePlayers := mapDelete st.activePlayers p }, ?_, ?_, ?_⟩
  · unfold rematchVote
    rw [hm]
    rfl
  · exact mapGet_mapDelete_self _ _
  · unfold enterLobby
    simp [mapGet_mapDelete_self]

/-- Witness for claim C7 at a concrete two-player session. -/
theorem rematch_decline_evicts_witness :
    mapGet stAB.matchesMap "AB12CD" = some mFull
    ∧ (∃ st', rematchVote stAB "AB12CD" "P1" false = Except.ok st'
      ∧ mapGet st'.matchesMap "AB12CD" = none
      ∧ enterLobby st' "s9" "AB12CD" "P2" 0
          = (st', Except.error "Match not found. Redirecting...")) :=
  ⟨by decide,
   rematch_decline_evicts stAB "AB12CD" "P1" "s9" "P2" 0 mFull (by decide)⟩

/-! ## Claim C8 -/

/-- Counterexample for claim C8 as stated: in the state where the session
still exists but the player has been removed from it, the fired timer is
not a safe no-op — `match.players[playerId].disconnected` reads a property
of `undefined` and raises a TypeError. -/
theorem graceTimer_removed_player_throws_cex :
    (mapGet stOnlyP2.matchesMap "AB12CD").isSome = true
    ∧ mapGet mOnlyP2.players "P1" = none
    ∧ graceTimerFire stOnlyP2 "AB12CD" "P1" = Except.error () := by
  decide

/-- Claim C8 (amended): the fired grace timer re-reads the current session
state; it is a safe no-op when the session is absent, or when the player is
still present but no longer marked disconnected; but when the session
exists and the player has been removed from it, the callback raises a
TypeError instead of no-opping. -/
theorem graceTimer_recheck_amended (st : ServerState) (mid pid : String) :
    (mapGet st.matchesMap mid = none →
      graceTimerFire st mid pid = Except.ok (st, false))
    ∧ (∀ m p, mapGet st.matchesMap mid = some m →
        mapGet m.players pid = some p → p.disconnected = false →
        graceTimerFire st mid pid = Except.ok (st, false))
    ∧ (∀ m, mapGet st.matchesMap mid = some m →
        mapGet m.players pid = none →
        graceTimerFire st mid pid = Except.error ()) := by
  refine ⟨fun h => ?_, fun m p hm hp hd => ?_, fun m hm hp => ?_⟩
  · unfold graceTimerFire
    rw [h]
  · unfold graceTimerFire
    rw [hm]
    simp only [hp, hd, Bool.false_eq_true, if_false]
  · unfold graceTimerFire
    rw [hm]
    simp only [hp]

/-- Witness for the amended claim C8: the three re-check outcomes at
concrete states. -/
theorem graceTimer_recheck_amended_witness :
    (mapGet stAB.matchesMap "ZZZZZZ" = none
      ∧ graceTimerFire stAB "ZZZZZZ" "P1" = Except.ok (stAB, false))
    ∧ (mapGet stAB.matchesMap "AB12CD" = some mFull
      ∧ mapGet mFull.players "P1" = some alice
      ∧ alice.disconnected = false
      ∧ graceTimerFire stAB "AB12CD" "P1" = Except.ok (stAB, false))
    ∧ (mapGet stOnlyP2.matchesMap "AB12CD" = some mOnlyP2
      ∧ mapGet mOnlyP2.players "P1" = none
      ∧ graceTimerFire stOnlyP2 "AB12CD" "P1" = Except.error ()) :=
  ⟨⟨by decide, (graceTimer_recheck_amended stAB "ZZZZZZ" "P1").1 (by decide)⟩,
   ⟨by decide, by decide, by decide,
    (graceTimer_recheck_amended stAB "AB12CD" "P1").2.1 mFull alice
      (by decide) (by decide) (by decide)⟩,
   ⟨by decide, by decide,
    (graceTimer_recheck_amended stOnlyP2 "AB12CD" "P1").2.2 mOnlyP2
      (by decide) (by decide)⟩⟩

/-! ## Claim C9 -/

/-- Claim C9: joining a one-player session through a lowercase spelling of
its id succeeds (the lookup uppercases the id) but commits the two-player
snapshot under the caller-supplied lowercase key, creating a second store
entry while the original uppercase-keyed session still holds one player. -/
theorem join_lowercase_creates_second_entry (st : ServerState)
    (sock mid name fresh : String) (m : Match)
    (hcase : toUpperCase mid ≠ mid)
    (hm : mapGet st.matchesMap (toUpperCase mid) = some m)
    (hone : m.players.length = 1)
    (hfresh : m.players.any (fun e => e.1 = fresh) = false) :
    (joinMatch st sock mid name none fresh).2 = Except.ok fresh
    ∧ ∃ m', mapGet (joinMatch st sock mid name none fresh).1.matchesMap mid
          = some m'
        ∧ m'.players.length = 2
        ∧ mapGet (joinMatch st sock mid name none fresh).1.matchesMap
            (toUpperCase mid) = some m := by
  have hfull : ¬ m.players.length > 1 := by omega
  have hfreshid : jsOrId none fresh = fresh := rfl
  unfold joinMatch
  rw [hm]
  simp only [if_neg hfull, hfreshid]
  refine ⟨by trivial, _, mapGet_mapSet_self _ _ _, ?_, ?_⟩
  · rw [length_mapSet_not_mem _ _ _ hfresh]
    omega
  · rw [mapGet_mapSet_ne _ _ _ _ hcase]
    exact hm

/-- Witness for claim C9: the concrete one-player session "AB12CD" joined
through the lowercase id "ab12cd". -/
theorem join_lowercase_creates_second_entry_witness :
    toUpperCase "ab12cd" ≠ "ab12cd"
    ∧ mapGet stOne.matchesMap (toUpperCase "ab12cd") = some mOne
    ∧ mOne.players.length = 1
    ∧ mOne.players.any (fun e => e.1 = "F1F2F3") = false
    ∧ ((joinMatch stOne "s2" "ab12cd" "Bob" none "F1F2F3").2
        = Except.ok "F1F2F3"
      ∧ ∃ m', mapGet (joinMatch stOne "s2" "ab12cd" "Bob" none
            "F1F2F3").1.matchesMap "ab12cd" = some m'
          ∧ m'.players.length = 2
          ∧ mapGet (joinMatch stOne "s2" "ab12cd" "Bob" none
              "F1F2F3").1.matchesMap (toUpperCase "ab12cd") = some mOne) :=
  ⟨by decide, by decide, by decide, by decide,
   join_lowercase_creates_second_entry stOne "s2" "ab12cd" "Bob" "F1F2F3" mOne
     (by decide) (by decide) (by decide) (by decide)⟩

/-! ## Claim C10 -/

/-- Claim C10: a declining rematch vote removes only the voter's entry from
the `activePlayers` index; the opponent's entry is unchanged and still maps
the opponent to the now-deleted session id. -/
theorem rematch_decline_keeps_opponent_index (st : ServerState)
    (mid p q : String) (m : Match) (e : ActiveEntry)
    (hm : mapGet st.matchesMap mid = some m)
    (hqp : q ≠ p)
    (he : mapGet st.activePlayers q = some e)
    (hemid : e.matchId = mid) :
    ∃ st', rematchVote st mid p false = Except.ok st'
      ∧ mapGet st'.activePlayers q = some e
      ∧ mapGet st'.matchesMap e.matchId = none := by
  refine ⟨{ st with matchesMap := mapDelete st.matchesMap mid, activePlayers := mapDelete st.activePlayers p }, ?_, ?_, ?_⟩
  · unfold rematchVote
    rw [hm]
    rfl
  · rw [show mapGet (mapDelete st.activePlayers p) q
        = mapGet st.activePlayers q from mapGet_mapDelete_ne _ _ _ hqp]
    exact he
  · rw [hemid]
    exact mapGet_mapDelete_self _ _

/-- Witness for claim C10 at a concrete two-player session. -/
theorem rematch_decline_keeps_opponent_index_witness :
    mapGet stAB.matchesMap "AB12CD" = some mFull
    ∧ "P2" ≠ "P1"
    ∧ mapGet stAB.activePlayers "P2"
        = some { socketId := "s2", matchId := "AB12CD" }
    ∧ (∃ st', rematchVote stAB "AB12CD" "P1" false = Except.ok st'
      ∧ mapGet st'.activePlayers "P2"
          = some { socketId := "s2", matchId := "AB12CD" }
      ∧ mapGet st'.matchesMap
          (ActiveEntry.matchId { socketId := "s2", matchId := "AB12CD" })
          = none) :=
  ⟨by decide, by decide, by decide,
   rematch_decline_keeps_opponent_index stAB "AB12CD" "P1" "P2" mFull
     { socketId := "s2", matchId := "AB12CD" }
     (by decide) (by decide) (by decide) (by decide)⟩

end TicTacToe
